import Mathlib

/-!
Verification development for the CSE Resource Sharing Platform backend
(src/main.py, src/schemas.py): a shallow embedding of the realtime
Broadcast Hub (`Broadcaster` in main.py) and of the API handlers
(login, create_resource, list_resources, list_pending, approve_resource)
over an explicit application state, together with theorems settling the
specified properties.

The external document store (`database.py`, imported by main.py but not
part of the sources here) is modelled from the spec as a generic
collection store with find/insert/update-by-id operations; everything
else is translated directly from main.py.
-/

namespace CsePlatform

/-! ### Broadcast events

The payloads actually broadcast by main.py: the synthetic `connected`
hello event sent on subscribe, and the two notification events sent by
the resource handlers. -/

inductive Event where
  | connected : Event
  | resourceCreated (resourceId : String) (title : String) : Event
  | resourceApproved (resourceId : String) : Event
deriving DecidableEq, Repr

/-! ### Channels

A channel models one `asyncio.Queue`: an unbounded FIFO queue of events,
identified by a numeric id (standing for Python object identity).  The
`closed` flag abstracts the only way `q.put` can fail (the consumer side
being gone); `Broadcaster.broadcast` wraps each put in `try/except` and
swallows such failures. -/

structure Channel where
  cid : Nat
  queue : List Event
  closed : Bool
deriving DecidableEq, Repr

/-- `await q.put(e)`: appends to the back of the queue; fails (returns
`none`) only when the channel is closed. -/
def putChan (c : Channel) (e : Event) : Option Channel :=
  if c.closed then none else some { c with queue := c.queue ++ [e] }

/-- `await q.get()`: takes the front element, suspending (here: `none`)
when the queue is empty. -/
def takeNext (c : Channel) : Option (Event × Channel) :=
  match c.queue with
  | [] => none
  | e :: rest => some (e, { c with queue := rest })

/-! ### The Broadcast Hub (`class Broadcaster` in main.py)

`channels` is the pool of every queue object in existence (queues keep
living, with their contents, after being unsubscribed); `subscribers`
is `self.subscribers`, the live set, as the list of channel ids in
registration order.  `nextId` generates fresh channel identities. -/

structure Hub where
  nextId : Nat
  channels : List Channel
  subscribers : List Nat
deriving DecidableEq, Repr

/-- `Broadcaster.__init__`: empty subscriber list. -/
def Hub.init : Hub := ⟨0, [], []⟩

/-- Look up the channel object with a given id. -/
def getChan : List Channel → Nat → Option Channel
  | [], _ => none
  | c :: cs, i => if c.cid = i then some c else getChan cs i

/-- The queue contents of channel `i` (empty if no such channel). -/
def Hub.queueOf (h : Hub) (i : Nat) : List Event :=
  ((getChan h.channels i).map Channel.queue).getD []

/-- `Broadcaster.subscribe`: create a fresh queue, append it to
`self.subscribers`, put the `connected` hello event into it (a fresh
queue is never closed, so this put cannot fail), and return the handle. -/
def Hub.subscribe (h : Hub) : Nat × Hub :=
  let c : Channel := ⟨h.nextId, [], false⟩
  let c2 := (putChan c Event.connected).getD c
  (h.nextId,
   { nextId := h.nextId + 1,
     channels := h.channels ++ [c2],
     subscribers := h.subscribers ++ [h.nextId] })

/-- `Broadcaster.unsubscribe`: `self.subscribers.remove(q)` removes the
first occurrence; the `except ValueError: pass` makes removal of an
unregistered channel a no-op. -/
def Hub.unsubscribe (h : Hub) (i : Nat) : Hub :=
  { h with subscribers := h.subscribers.erase i }

/-- `Broadcaster.broadcast`: iterate over a snapshot
(`list(self.subscribers)`) of the live set and put the message into each
channel, swallowing per-channel failures (`try ... except: pass`, modelled
by keeping the channel unchanged when `putChan` fails).  The function is
total: no error reaches the caller. -/
def Hub.broadcast (h : Hub) (e : Event) : Hub :=
  let snapshot := h.subscribers
  { h with
    channels := h.channels.map (fun c =>
      if c.cid ∈ snapshot then (putChan c e).getD c else c) }

/-- A sequence of `broadcast` calls in order. -/
def Hub.broadcastAll (h : Hub) (es : List Event) : Hub :=
  es.foldl Hub.broadcast h

/-! ### ObjectId identifiers

Store documents are keyed by ObjectId.  We model an ObjectId as a `Nat`
and its string rendering (`str(doc["_id"])`, produced by `clean`) as the
24-character lowercase hexadecimal form; `ObjectId(id_str)` from bson
(used by the `oid` helper of main.py) accepts exactly 24-character
hexadecimal strings. -/

def isHexDigitChar (c : Char) : Bool :=
  c.isDigit || ('a' ≤ c && c ≤ 'f') || ('A' ≤ c && c ≤ 'F')

def hexCharVal (c : Char) : Nat :=
  if c.isDigit then c.toNat - '0'.toNat
  else if 'a' ≤ c && c ≤ 'f' then c.toNat - 'a'.toNat + 10
  else c.toNat - 'A'.toNat + 10

/-- `ObjectId(id_str)`: succeeds iff the string is 24 hex characters. -/
def parseOid (s : String) : Option Nat :=
  if s.length = 24 && s.data.all isHexDigitChar then
    some (s.data.foldl (fun acc c => 16 * acc + hexCharVal c) 0)
  else none

def toHexChar (n : Nat) : Char :=
  if n < 10 then Char.ofNat ('0'.toNat + n) else Char.ofNat ('a'.toNat + n - 10)

def hexDigits : Nat → Nat → List Char
  | 0, _ => []
  | k + 1, n => hexDigits k (n / 16) ++ [toHexChar (n % 16)]

/-- `str(_id)`: 24-character lowercase hex rendering of an ObjectId. -/
def oidString (n : Nat) : String := ⟨hexDigits 24 n⟩

/-! ### Domain documents (schemas.py shapes, as stored by main.py)

Timestamps (`datetime.now(timezone.utc)`) are modelled by an abstract
clock value `now : Nat` passed to each handler. -/

inductive Status where
  | pending : Status
  | approved : Status
  | rejected : Status
deriving DecidableEq, Repr

def statusString : Status → String
  | .pending => "pending"
  | .approved => "approved"
  | .rejected => "rejected"

/-- The user document written by `login` (exactly the keys of its `doc`
dict). -/
structure UserDoc where
  name : String
  email : String
  role : String
  semester : Option Int
  department : String
  is_active : Bool
  updated_at : Nat
deriving DecidableEq, Repr

/-- The resource document: the `Resource` schema fields, plus the
`updated_at` field that the approve handler's `$set` adds. -/
structure ResourceDoc where
  title : String
  description : Option String
  semester : Int
  subject : String
  tags : List String
  file_url : Option String
  content_url : Option String
  uploaded_by : String
  uploader_name : Option String
  status : Status
  approved_by : Option String
  approved_at : Option Nat
  updated_at : Option Nat
deriving DecidableEq, Repr

/-- The `Notification` schema fields. -/
structure NotificationDoc where
  type : String
  message : String
  resource_id : Option String
  created_by : Option String
  semester : Option Int
  subject : Option String
deriving DecidableEq, Repr

/-- Body of `POST /resources` (`CreateResourceRequest`). -/
structure CreatePayload where
  title : String
  description : Option String
  semester : Int
  subject : String
  tags : List String
  file_url : Option String
  content_url : Option String
  uploaded_by : String
  uploader_name : Option String
deriving DecidableEq, Repr

/-! ### Errors and application state -/

/-- An error escaping a handler: either an `HTTPException(status, detail)`
raised on purpose, or an uncaught exception (which FastAPI turns into an
internal server error, not a service-unavailable response). -/
inductive HError where
  | http (status : Nat) (detail : String) : HError
  | internal (msg : String) : HError
deriving DecidableEq, Repr

/-- The whole mutable state the handlers touch: the three store
collections (id-keyed document lists in insertion order), a fresh-id
counter for inserts, the store-configured flag (`db is None` in main.py
when false), and the broadcast hub singleton. -/
structure AppState where
  dbConfigured : Bool
  users : List (Nat × UserDoc)
  resources : List (Nat × ResourceDoc)
  notifications : List (Nat × NotificationDoc)
  nextOid : Nat
  hub : Hub
deriving DecidableEq, Repr

def AppState.init (dbConfigured : Bool) : AppState :=
  ⟨dbConfigured, [], [], [], 0, Hub.init⟩

/-- `find_one({"_id": i})`: first document with the given id. -/
def lookup {α : Type} : List (Nat × α) → Nat → Option α
  | [], _ => none
  | p :: ps, i => if p.1 = i then some p.2 else lookup ps i

/-- `update_one({"_id": i}, {"$set": ...})` where the `$set` covers every
mutable field: replace the first document with the given id (no-op when
absent). -/
def setDoc {α : Type} : List (Nat × α) → Nat → α → List (Nat × α)
  | [], _, _ => []
  | p :: ps, i, d => if p.1 = i then (i, d) :: ps else p :: setDoc ps i d

/-- `users.find_one({"email": email})` filtered view: all user records
with the given email (the store returns the first). -/
def usersWithEmail (users : List (Nat × UserDoc)) (e : String) :
    List (Nat × UserDoc) :=
  users.filter (fun p => p.2.email == e)

/-! ### API handlers (main.py)

Each handler returns its HTTP outcome together with the application
state after the call (the state component equals the input state
whenever the handler raised before writing anything). -/

/-- `POST /auth/login` (`login` in main.py): upsert the user keyed by
email and return the cleaned record. -/
def login (st : AppState) (name email role : String) (semester : Option Int)
    (now : Nat) : (Except HError (String × UserDoc)) × AppState :=
  if st.dbConfigured = false then
    (.error (.http 503 "Database not configured"), st)
  else
    let doc : UserDoc := ⟨name, email, role, semester, "CSE", true, now⟩
    match st.users.find? (fun p => p.2.email == email) with
    | some p =>
        (.ok (oidString p.1, doc), { st with users := setDoc st.users p.1 doc })
    | none =>
        (.ok (oidString st.nextOid, doc),
         { st with users := st.users ++ [(st.nextOid, doc)],
                   nextOid := st.nextOid + 1 })

/-- The `ResourceSchema(...).model_dump()` built by `create_resource`:
all payload fields plus `status="pending"`. -/
def mkResourceDoc (p : CreatePayload) : ResourceDoc :=
  { title := p.title, description := p.description, semester := p.semester,
    subject := p.subject, tags := p.tags, file_url := p.file_url,
    content_url := p.content_url, uploaded_by := p.uploaded_by,
    uploader_name := p.uploader_name, status := Status.pending,
    approved_by := none, approved_at := none, updated_at := none }

/-- `POST /resources` (`create_resource` in main.py): validate the
schema (`Resource.semester` is constrained to 1..8; a pydantic
`ValidationError` inside the handler is an uncaught exception), insert
the pending resource, persist a `resource_created` notification, and
broadcast.  The store-insert guard is Modelled from the spec: the
Document Store Gateway (`create_document` in the absent database.py)
surfaces StoreUnavailable as a service-unavailable error when the
backing store is not configured. -/
def create_resource (st : AppState) (p : CreatePayload) :
    (Except HError (Option (String × ResourceDoc))) × AppState :=
  if ¬(1 ≤ p.semester ∧ p.semester ≤ 8) then
    (.error (.internal "ValidationError"), st)
  else if st.dbConfigured = false then
    (.error (.http 503 "Database not configured"), st)
  else
    let d := mkResourceDoc p
    let rid := st.nextOid
    let st1 := { st with resources := st.resources ++ [(rid, d)],
                         nextOid := rid + 1 }
    let notif : NotificationDoc :=
      ⟨"resource_created", "New resource pending: " ++ d.title,
       some (oidString rid), some d.uploaded_by, some d.semester,
       some d.subject⟩
    let st2 := { st1 with
      notifications := st1.notifications ++ [(st1.nextOid, notif)],
      nextOid := st1.nextOid + 1 }
    let st3 := { st2 with
      hub := st2.hub.broadcast (Event.resourceCreated (oidString rid) d.title) }
    match lookup st3.resources rid with
    | some d2 => (.ok (some (oidString rid, d2)), st3)
    | none => (.ok none, st3)

/-- The Mongo filter dict `q` built by `list_resources` /
`list_pending`: a key is present only when the corresponding branch
added it. -/
structure ResourceQuery where
  semester : Option Int
  subject : Option String
  status : Option String
  uploaded_by : Option String
deriving DecidableEq, Repr

/-- Python string truthiness for the `if subject:` / `if uploaded_by:`
guards: an absent or empty string adds no filter key. -/
def strTruthy : Option String → Option String
  | none => none
  | some s => if s = "" then none else some s

/-- The filter dict built by `list_resources` (lines 141..149): semester
is added under `is not None`, the string filters under truthiness. -/
def buildResourceQuery (semester : Option Int) (subject : Option String)
    (status : String) (uploaded_by : Option String) : ResourceQuery :=
  { semester := semester,
    subject := strTruthy subject,
    status := if status = "" then none else some status,
    uploaded_by := strTruthy uploaded_by }

/-- Whether a stored resource document matches every key of the filter. -/
def matchesQuery (q : ResourceQuery) (d : ResourceDoc) : Bool :=
  (match q.semester with | none => true | some n => d.semester == n) &&
  (match q.subject with | none => true | some s => d.subject == s) &&
  (match q.status with | none => true | some s => statusString d.status == s) &&
  (match q.uploaded_by with | none => true | some s => d.uploaded_by == s)

/-- Modelled from the spec: `get_documents(collection, q, limit)` of the
Document Store Gateway (absent database.py) returns the documents
matching the filter, in natural (insertion) order, up to `limit`. -/
def get_documents (rs : List (Nat × ResourceDoc)) (q : ResourceQuery)
    (lim : Option Int) : List (Nat × ResourceDoc) :=
  let matched := rs.filter (fun p => matchesQuery q p.2)
  match lim with
  | none => matched
  | some n => matched.take n.toNat

/-- `clean` applied to a stored resource: `_id` projected to the string
`id`. -/
def cleanResource (p : Nat × ResourceDoc) : String × ResourceDoc :=
  (oidString p.1, p.2)

/-- `GET /resources` (`list_resources` in main.py): explicit
store-configured check, then filter by the query parameters.  `status`
has default `"approved"`; `limit` has default `100` (applied by FastAPI
at the call boundary). -/
def list_resources (st : AppState) (semester : Option Int)
    (subject : Option String) (status : String) (uploaded_by : Option String)
    (lim : Option Int) : (Except HError (List (String × ResourceDoc))) × AppState :=
  if st.dbConfigured = false then
    (.error (.http 503 "Database not configured"), st)
  else
    let q := buildResourceQuery semester subject status uploaded_by
    (.ok ((get_documents st.resources q lim).map cleanResource), st)

/-- `GET /resources/pending` (`list_pending` in main.py): fixed
`status="pending"` filter, limit 200.  The handler itself has no
store-configured check; the guard is Modelled from the spec: the gateway
(`get_documents` in the absent database.py) surfaces StoreUnavailable as
a service-unavailable error. -/
def list_pending (st : AppState) (semester : Option Int)
    (subject : Option String) :
    (Except HError (List (String × ResourceDoc))) × AppState :=
  if st.dbConfigured = false then
    (.error (.http 503 "Database not configured"), st)
  else
    let q : ResourceQuery :=
      { semester := semester, subject := strTruthy subject,
        status := some "pending", uploaded_by := none }
    (.ok ((get_documents st.resources q (some 200)).map cleanResource), st)

/-- The `oid` helper of main.py: parse the path id, raising
`HTTPException(400, "Invalid id")` when `ObjectId(id_str)` fails. -/
def oid (id_str : String) : Except HError Nat :=
  match parseOid id_str with
  | some n => .ok n
  | none => .error (.http 400 "Invalid id")

/-- The `$set` document of the approve handler applied to the found
resource. -/
def approvedDoc (doc : ResourceDoc) (ab : String) (now : Nat) : ResourceDoc :=
  { doc with status := Status.approved, approved_by := some ab,
             approved_at := some now, updated_at := some now }

/-- `POST /resources/{resource_id}/approve` (`approve_resource` in
main.py).  Note the handler has no `db is None` check: with the store
not configured, `db["resource"]` on line 171 raises a `TypeError`
(an uncaught exception, hence an internal server error, not a
service-unavailable response).  Path on success: find the resource (400
on malformed id, 404 when absent), return it unchanged when already
approved, otherwise write the approval fields, re-read the document,
persist a `resource_approved` notification and broadcast. -/
def approve_resource (st : AppState) (resource_id : String)
    (approved_by : String) (now : Nat) :
    (Except HError (String × ResourceDoc)) × AppState :=
  if st.dbConfigured = false then
    (.error (.internal "TypeError: NoneType is not subscriptable"), st)
  else
    match oid resource_id with
    | .error e => (.error e, st)
    | .ok rid =>
      match lookup st.resources rid with
      | none => (.error (.http 404 "Resource not found"), st)
      | some doc =>
        if doc.status = Status.approved then
          (.ok (oidString rid, doc), st)
        else
          let st1 := { st with
            resources := setDoc st.resources rid (approvedDoc doc approved_by now) }
          match lookup st1.resources rid with
          | none => (.error (.internal "TypeError: NoneType is not subscriptable"), st1)
          | some updated =>
            let notif : NotificationDoc :=
              ⟨"resource_approved", "Resource approved: " ++ updated.title,
               some (oidString rid), some approved_by,
               some updated.semester, some updated.subject⟩
            let st2 := { st1 with
              notifications := st1.notifications ++ [(st1.nextOid, notif)],
              nextOid := st1.nextOid + 1 }
            let st3 := { st2 with
              hub := st2.hub.broadcast (Event.resourceApproved (oidString rid)) }
            (.ok (oidString rid, updated), st3)

/-! ### The operations of the program, as one step relation -/

inductive Op where
  | opLogin (name email role : String) (semester : Option Int) : Op
  | opCreate (p : CreatePayload) : Op
  | opList (semester : Option Int) (subject : Option String) (status : String)
      (uploaded_by : Option String) (lim : Option Int) : Op
  | opListPending (semester : Option Int) (subject : Option String) : Op
  | opApprove (resource_id : String) (approved_by : String) : Op
  | opSubscribe : Op
  | opUnsubscribe (i : Nat) : Op
deriving DecidableEq, Repr

/-- One request handled at clock value `now`, projected to its effect on
the application state. -/
def step (st : AppState) (op : Op) (now : Nat) : AppState :=
  match op with
  | .opLogin n e r s => (login st n e r s now).2
  | .opCreate p => (create_resource st p).2
  | .opList sem subj status ub lim => (list_resources st sem subj status ub lim).2
  | .opListPending sem subj => (list_pending st sem subj).2
  | .opApprove s ab => (approve_resource st s ab now).2
  | .opSubscribe => { st with hub := (st.hub.subscribe).2 }
  | .opUnsubscribe i => { st with hub := st.hub.unsubscribe i }

/-- No stored resource has the declared-but-unreachable `rejected`
status. -/
def noRejectedB (st : AppState) : Bool :=
  st.resources.all (fun p => !(p.2.status == Status.rejected))

/-! ### Concrete states used to instantiate the theorems -/

/-- A hub with one open subscriber channel (id 0) and one subscriber
channel whose consumer is gone (id 1, closed). -/
def hubW : Hub := ⟨2, [⟨0, [], false⟩, ⟨1, [], true⟩], [0, 1]⟩

def docPendingW : ResourceDoc :=
  ⟨"Notes", none, 3, "OS", [], none, none, "a@x.com", none,
   Status.pending, none, none, none⟩

def docApprovedW : ResourceDoc :=
  { docPendingW with status := Status.approved, approved_by := some "t@x.com",
                     approved_at := some 1, updated_at := some 1 }

def docRejectedW : ResourceDoc := { docPendingW with status := Status.rejected }

def stApprovedW : AppState := ⟨true, [], [(0, docApprovedW)], [], 1, Hub.init⟩

def stPendingW : AppState := ⟨true, [], [(0, docPendingW)], [], 1, Hub.init⟩

def stMixedW : AppState :=
  ⟨true, [], [(0, docPendingW), (1, docApprovedW), (2, docRejectedW)], [], 3, Hub.init⟩

/-- The 24-hex-character string form of ObjectId 0. -/
def zeroIdW : String := "000000000000000000000000"

def payloadW : CreatePayload :=
  ⟨"Notes", none, 3, "OS", [], none, none, "a@x.com", none⟩

/-! ## Lemmas about the hub -/

theorem putChan_cid (c : Channel) (e : Event) :
    ((putChan c e).getD c).cid = c.cid := by
  unfold putChan; split <;> rfl

theorem putChan_not_closed (c : Channel) (e : Event) (h : c.closed = false) :
    putChan c e = some { c with queue := c.queue ++ [e] } := by
  unfold putChan; rw [h]; rfl

theorem putChan_closed (c : Channel) (e : Event) (h : c.closed = true) :
    putChan c e = none := by
  unfold putChan; rw [h]; rfl

theorem getChan_cid {l : List Channel} {i : Nat} {c : Channel}
    (h : getChan l i = some c) : c.cid = i := by
  induction l with
  | nil => simp [getChan] at h
  | cons a as ih =>
    by_cases ha : a.cid = i
    · simp [getChan, ha] at h; rw [← h]; exact ha
    · simp [getChan, ha] at h; exact ih h

theorem getChan_map {f : Channel → Channel}
    (hf : ∀ c, (f c).cid = c.cid) (l : List Channel) (i : Nat) :
    getChan (l.map f) i = (getChan l i).map f := by
  induction l with
  | nil => rfl
  | cons a as ih =>
    by_cases ha : a.cid = i
    · simp [getChan, hf, ha]
    · simp [getChan, hf, ha, ih]

theorem getChan_append_none {l : List Channel} {i : Nat}
    (h : getChan l i = none) (l' : List Channel) :
    getChan (l ++ l') i = getChan l' i := by
  induction l with
  | nil => rfl
  | cons a as ih =>
    by_cases ha : a.cid = i
    · simp [getChan, ha] at h
    · simp [getChan, ha] at h ⊢; exact ih h

theorem getChan_none_of_forall {l : List Channel} {i : Nat}
    (h : ∀ c ∈ l, c.cid ≠ i) : getChan l i = none := by
  induction l with
  | nil => rfl
  | cons a as ih =>
    have ha := h a (List.mem_cons_self a as)
    simp [getChan, ha]
    exact ih (fun c hc => h c (List.mem_cons_of_mem a hc))

theorem broadcast_subscribers (h : Hub) (e : Event) :
    (h.broadcast e).subscribers = h.subscribers := rfl

theorem broadcast_getChan (h : Hub) (e : Event) (i : Nat) :
    getChan (h.broadcast e).channels i =
      (getChan h.channels i).map (fun c =>
        if c.cid ∈ h.subscribers then (putChan c e).getD c else c) := by
  unfold Hub.broadcast
  exact getChan_map (fun c => by split <;> simp [putChan_cid]) h.channels i

theorem broadcast_queueOf_delivered (h : Hub) (e : Event) (i : Nat) (c : Channel)
    (hc : getChan h.channels i = some c) (hsub : i ∈ h.subscribers)
    (hcl : c.closed = false) :
    (h.broadcast e).queueOf i = h.queueOf i ++ [e] := by
  unfold Hub.queueOf
  rw [broadcast_getChan, hc]
  have hcid := getChan_cid hc
  simp [hcid, hsub, putChan_not_closed c e hcl]

theorem broadcast_queueOf_closed (h : Hub) (e : Event) (i : Nat) (c : Channel)
    (hc : getChan h.channels i = some c) (hcl : c.closed = true) :
    (h.broadcast e).queueOf i = h.queueOf i := by
  unfold Hub.queueOf
  rw [broadcast_getChan, hc]
  have hcid := getChan_cid hc
  by_cases hsub : i ∈ h.subscribers
  · simp [hcid, hsub, putChan_closed c e hcl]
  · simp [hcid, hsub]

theorem broadcast_queueOf_not_subscribed (h : Hub) (e : Event) (i : Nat)
    (hsub : i ∉ h.subscribers) :
    (h.broadcast e).queueOf i = h.queueOf i := by
  unfold Hub.queueOf
  rw [broadcast_getChan]
  cases hc : getChan h.channels i with
  | none => simp
  | some c =>
    have hcid := getChan_cid hc
    simp [hcid, hsub]

theorem nodup_not_mem_erase {l : List Nat} (hnd : l.Nodup) (a : Nat) :
    a ∉ l.erase a := by
  induction l with
  | nil => simp
  | cons b bs ih =>
    rcases List.nodup_cons.mp hnd with ⟨hb, hbs⟩
    by_cases hab : b = a
    · subst hab
      rw [List.erase_cons_head]
      exact hb
    · rw [List.erase_cons_tail (by simpa using hab)]
      intro hmem
      rcases List.mem_cons.mp hmem with h1 | h1
      · exact hab h1.symm
      · exact ih hbs h1

/-! ## Claim theorems about the Broadcast Hub -/

/-- C1: a single `broadcast(E)` call appends `E` exactly once to the
queue of every channel in the subscriber set whose put succeeds,
regardless of failures on any other channel (the delivered-case equation
holds for each channel independent of the rest); a channel whose put
fails, and any unregistered channel, is left untouched, and the call
itself is a total function on hubs (no error propagates to the caller),
iterating over the call-time snapshot of the subscriber set. -/
theorem broadcast_fanout (h : Hub) (e : Event) (i : Nat) (c : Channel)
    (hc : getChan h.channels i = some c) :
    ((i ∈ h.subscribers ∧ c.closed = false) →
       (h.broadcast e).queueOf i = h.queueOf i ++ [e]) ∧
    ((i ∈ h.subscribers ∧ c.closed = true) →
       (h.broadcast e).queueOf i = h.queueOf i) ∧
    (i ∉ h.subscribers → (h.broadcast e).queueOf i = h.queueOf i) ∧
    (h.broadcast e).subscribers = h.subscribers := by
  refine ⟨fun ⟨hs, hcl⟩ => broadcast_queueOf_delivered h e i c hc hs hcl,
          fun ⟨_, hcl⟩ => broadcast_queueOf_closed h e i c hc hcl,
          fun hs => broadcast_queueOf_not_subscribed h e i hs,
          rfl⟩

theorem broadcast_fanout_witness :
    (getChan hubW.channels 0 = some (Channel.mk 0 [] false) ∧
       0 ∈ hubW.subscribers ∧
       getChan hubW.channels 1 = some (Channel.mk 1 [] true)) ∧
    (hubW.broadcast Event.connected).queueOf 0 =
        hubW.queueOf 0 ++ [Event.connected] ∧
    (hubW.broadcast Event.connected).queueOf 1 = hubW.queueOf 1 :=
  ⟨⟨by decide, by decide, by decide⟩,
   (broadcast_fanout hubW Event.connected 0 (Channel.mk 0 [] false)
      (by decide)).1 ⟨by decide, rfl⟩,
   (broadcast_fanout hubW Event.connected 1 (Channel.mk 1 [] true)
      (by decide)).2.1 ⟨by decide, rfl⟩⟩

/-- C2: over any sequence of `broadcast` calls, the queue of a channel
that stays subscribed and open ends up holding exactly the broadcast
events, appended after its prior contents in broadcast-call order; since
a channel is a FIFO queue dequeued from the front, the events are
dequeued in exactly the order the `broadcast` calls were made. -/
theorem broadcast_fifo (h : Hub) (es : List Event) (i : Nat) (c : Channel)
    (hc : getChan h.channels i = some c) (hsub : i ∈ h.subscribers)
    (hcl : c.closed = false) :
    (h.broadcastAll es).queueOf i = h.queueOf i ++ es := by
  induction es generalizing h c with
  | nil => simp [Hub.broadcastAll]
  | cons e es ih =>
    have h1 : getChan (h.broadcast e).channels i =
        some { c with queue := c.queue ++ [e] } := by
      rw [broadcast_getChan, hc]
      simp [getChan_cid hc, hsub, putChan_not_closed c e hcl]
    have h2 : i ∈ (h.broadcast e).subscribers := hsub
    have h3 := ih (h.broadcast e) { c with queue := c.queue ++ [e] } h1 h2 hcl
    calc (h.broadcastAll (e :: es)).queueOf i
        = ((h.broadcast e).broadcastAll es).queueOf i := rfl
      _ = (h.broadcast e).queueOf i ++ es := h3
      _ = (h.queueOf i ++ [e]) ++ es := by
            rw [broadcast_queueOf_delivered h e i c hc hsub hcl]
      _ = h.queueOf i ++ (e :: es) := by simp

theorem broadcast_fifo_witness :
    (getChan hubW.channels 0 = some (Channel.mk 0 [] false) ∧
       0 ∈ hubW.subscribers) ∧
    (hubW.broadcastAll
        [Event.resourceCreated "r1" "Notes", Event.resourceApproved "r1"]).queueOf 0 =
      hubW.queueOf 0 ++
        [Event.resourceCreated "r1" "Notes", Event.resourceApproved "r1"] :=
  ⟨⟨by decide, by decide⟩,
   broadcast_fifo hubW
     [Event.resourceCreated "r1" "Notes", Event.resourceApproved "r1"] 0
     (Channel.mk 0 [] false) (by decide) (by decide) rfl⟩

/-- C3: `subscribe` allocates a channel id that no existing channel
carries (fresh), appends it to the live subscriber set, and leaves the
new channel's queue holding exactly the synthetic `connected` event as
its first and only message; consequently no event other than
`connected` — in particular no event broadcast before the call — is in
the new channel's queue. -/
theorem subscribe_spec (h : Hub)
    (hfresh : ∀ c ∈ h.channels, c.cid < h.nextId) :
    getChan h.channels (h.subscribe).1 = none ∧
    (h.subscribe).2.subscribers = h.subscribers ++ [(h.subscribe).1] ∧
    (h.subscribe).2.queueOf (h.subscribe).1 = [Event.connected] ∧
    ∀ e : Event, e ≠ Event.connected →
      e ∉ (h.subscribe).2.queueOf (h.subscribe).1 := by
  have hnone : getChan h.channels h.nextId = none :=
    getChan_none_of_forall (fun c hc => Nat.ne_of_lt (hfresh c hc))
  have hq : (h.subscribe).2.queueOf (h.subscribe).1 = [Event.connected] := by
    show ((getChan (h.channels ++ [⟨h.nextId, [Event.connected], false⟩])
        h.nextId).map Channel.queue).getD [] = [Event.connected]
    rw [getChan_append_none hnone]
    simp [getChan]
  refine ⟨hnone, rfl, hq, ?_⟩
  intro e he hmem
  rw [hq] at hmem
  exact he (List.mem_singleton.mp hmem)

theorem subscribe_spec_witness :
    (∀ c ∈ hubW.channels, c.cid < hubW.nextId) ∧
    getChan hubW.channels (hubW.subscribe).1 = none ∧
    (hubW.subscribe).2.queueOf (hubW.subscribe).1 = [Event.connected] ∧
    Event.resourceApproved "r1" ∉ (hubW.subscribe).2.queueOf (hubW.subscribe).1 :=
  ⟨by decide,
   (subscribe_spec hubW (by decide)).1,
   (subscribe_spec hubW (by decide)).2.2.1,
   (subscribe_spec hubW (by decide)).2.2.2 (Event.resourceApproved "r1")
     (by decide)⟩

/-- C6: `unsubscribe` removes the channel from the live subscriber set;
on a channel that is not currently registered it is a no-op (the hub is
returned unchanged and, being a total function, it raises no error); and
after a channel has been unsubscribed a subsequent `broadcast` — itself
total, hence error-free — enqueues nothing onto the removed channel. -/
theorem unsubscribe_spec (h : Hub) (i : Nat) (hnd : h.subscribers.Nodup) :
    i ∉ (h.unsubscribe i).subscribers ∧
    (i ∉ h.subscribers → h.unsubscribe i = h) ∧
    ∀ e : Event, ((h.unsubscribe i).broadcast e).queueOf i = h.queueOf i := by
  have hout : i ∉ (h.unsubscribe i).subscribers := nodup_not_mem_erase hnd i
  refine ⟨hout, ?_, ?_⟩
  · intro hmem
    show { h with subscribers := h.subscribers.erase i } = h
    rw [List.erase_of_not_mem hmem]
  · intro e
    have hq : (h.unsubscribe i).queueOf i = h.queueOf i := rfl
    rw [broadcast_queueOf_not_subscribed (h.unsubscribe i) e i hout, hq]

theorem unsubscribe_spec_witness :
    (hubW.subscribers.Nodup ∧ 5 ∉ hubW.subscribers) ∧
    1 ∉ (hubW.unsubscribe 1).subscribers ∧
    hubW.unsubscribe 5 = hubW ∧
    ((hubW.unsubscribe 1).broadcast Event.connected).queueOf 1 = hubW.queueOf 1 :=
  ⟨⟨by decide, by decide⟩,
   (unsubscribe_spec hubW 1 (by decide)).1,
   (unsubscribe_spec hubW 5 (by decide)).2.1 (by decide),
   (unsubscribe_spec hubW 1 (by decide)).2.2 Event.connected⟩

/-! ## Lemmas about the store collections -/

theorem lookup_append_some {α : Type} {l : List (Nat × α)} {i : Nat} {d : α}
    (h : lookup l i = some d) (l' : List (Nat × α)) :
    lookup (l ++ l') i = some d := by
  induction l with
  | nil => simp [lookup] at h
  | cons p ps ih =>
    by_cases hp : p.1 = i
    · simp [lookup, hp] at h ⊢; exact h
    · simp [lookup, hp] at h ⊢; exact ih h

theorem lookup_append_none {α : Type} {l : List (Nat × α)} {i : Nat}
    (h : lookup l i = none) (l' : List (Nat × α)) :
    lookup (l ++ l') i = lookup l' i := by
  induction l with
  | nil => rfl
  | cons p ps ih =>
    by_cases hp : p.1 = i
    · simp [lookup, hp] at h
    · simp [lookup, hp] at h ⊢; exact ih h

theorem lookup_mem {α : Type} {l : List (Nat × α)} {i : Nat} {d : α}
    (h : lookup l i = some d) : (i, d) ∈ l := by
  induction l with
  | nil => simp [lookup] at h
  | cons p ps ih =>
    rcases p with ⟨a, b⟩
    by_cases hp : a = i
    · simp [lookup, hp] at h
      subst hp
      subst h
      exact List.mem_cons_self _ _
    · simp [lookup, hp] at h
      exact List.mem_cons_of_mem _ (ih h)

theorem lookup_setDoc_self {α : Type} {l : List (Nat × α)} {i : Nat} {x : α}
    (d : α) (h : lookup l i = some x) :
    lookup (setDoc l i d) i = some d := by
  induction l with
  | nil => simp [lookup] at h
  | cons p ps ih =>
    by_cases hp : p.1 = i
    · simp [lookup, setDoc, hp]
    · simp [lookup, setDoc, hp] at h ⊢; exact ih h

theorem lookup_setDoc_ne {α : Type} (l : List (Nat × α)) {i j : Nat} (d : α)
    (hij : j ≠ i) : lookup (setDoc l i d) j = lookup l j := by
  induction l with
  | nil => rfl
  | cons p ps ih =>
    by_cases hp : p.1 = i
    · simp [lookup, setDoc, hp, Ne.symm hij]
    · simp only [setDoc, if_neg hp]
      by_cases hpj : p.1 = j
      · simp [lookup, hpj]
      · simp [lookup, hpj]; exact ih

theorem mem_setDoc {α : Type} {l : List (Nat × α)} {i : Nat} {d : α}
    {p : Nat × α} (h : p ∈ setDoc l i d) : p = (i, d) ∨ p ∈ l := by
  induction l with
  | nil => simp [setDoc] at h
  | cons q qs ih =>
    by_cases hq : q.1 = i
    · simp only [setDoc, if_pos hq] at h
      rcases List.mem_cons.mp h with h1 | h1
      · exact Or.inl h1
      · exact Or.inr (List.mem_cons_of_mem q h1)
    · simp only [setDoc, if_neg hq] at h
      rcases List.mem_cons.mp h with h1 | h1
      · exact Or.inr (h1 ▸ List.mem_cons_self q qs)
      · rcases ih h1 with h2 | h2
        · exact Or.inl h2
        · exact Or.inr (List.mem_cons_of_mem q h2)

theorem setDoc_append_fresh {α : Type} {l : List (Nat × α)} {i : Nat}
    (hfresh : ∀ p ∈ l, p.1 ≠ i) (x d : α) :
    setDoc (l ++ [(i, x)]) i d = l ++ [(i, d)] := by
  induction l with
  | nil => simp [setDoc]
  | cons p ps ih =>
    have hp := hfresh p (List.mem_cons_self p ps)
    simp only [List.cons_append, setDoc, if_neg hp]
    exact congrArg (List.cons p)
      (ih (fun q hq => hfresh q (List.mem_cons_of_mem p hq)))

theorem find?_eq_none_of_filter_nil {α : Type} {p : α → Bool} {l : List α}
    (h : l.filter p = []) : l.find? p = none := by
  induction l with
  | nil => rfl
  | cons a as ih =>
    cases hpa : p a
    · rw [List.filter_cons_of_neg (by simp [hpa])] at h
      rw [List.find?_cons_of_neg _ (by simp [hpa])]
      exact ih h
    · rw [List.filter_cons_of_pos (by simp [hpa])] at h
      exact absurd h (List.cons_ne_nil a _)

theorem find?_append_none {α : Type} {p : α → Bool} {l : List α}
    (h : l.find? p = none) (l' : List α) :
    (l ++ l').find? p = l'.find? p := by
  induction l with
  | nil => rfl
  | cons a as ih =>
    cases hpa : p a
    · rw [List.cons_append, List.find?_cons_of_neg _ (by simp [hpa])]
      rw [List.find?_cons_of_neg _ (by simp [hpa])] at h
      exact ih h
    · rw [List.find?_cons_of_pos _ hpa] at h
      exact absurd h (by simp)

theorem noRejected_spec {st : AppState} (h : noRejectedB st = true)
    {p : Nat × ResourceDoc} (hp : p ∈ st.resources) :
    p.2.status ≠ Status.rejected := by
  have := List.all_eq_true.mp h p hp
  simpa using this

theorem status_pending_of_ne {s : Status} (h1 : s ≠ Status.approved)
    (h2 : s ≠ Status.rejected) : s = Status.pending := by
  cases s <;> simp_all

/-! ## Characterization lemmas for the handlers -/

theorem login_resources (st : AppState) (n e r : String) (s : Option Int)
    (now : Nat) : ((login st n e r s now).2).resources = st.resources := by
  unfold login
  split
  · rfl
  · split <;> rfl

theorem login_new (st : AppState) (n e r : String) (s : Option Int) (now : Nat)
    (hdb : st.dbConfigured = true)
    (hfind : st.users.find? (fun q => q.2.email == e) = none) :
    login st n e r s now =
      (.ok (oidString st.nextOid, ⟨n, e, r, s, "CSE", true, now⟩),
       { st with
         users := st.users ++ [(st.nextOid, ⟨n, e, r, s, "CSE", true, now⟩)],
         nextOid := st.nextOid + 1 }) := by
  simp [login, hdb, hfind]

theorem login_overwrite (st : AppState) (n e r : String) (s : Option Int)
    (now : Nat) {i : Nat} {u : UserDoc}
    (hdb : st.dbConfigured = true)
    (hfind : st.users.find? (fun q => q.2.email == e) = some (i, u)) :
    ((login st n e r s now).2).users =
      setDoc st.users i ⟨n, e, r, s, "CSE", true, now⟩ := by
  simp [login, hdb, hfind]

theorem list_resources_state (st : AppState) (sem : Option Int)
    (subj : Option String) (status : String) (ub : Option String)
    (lim : Option Int) : (list_resources st sem subj status ub lim).2 = st := by
  unfold list_resources
  split <;> rfl

theorem list_pending_state (st : AppState) (sem : Option Int)
    (subj : Option String) : (list_pending st sem subj).2 = st := by
  unfold list_pending
  split <;> rfl

theorem create_resource_resources (st : AppState) (p : CreatePayload) :
    ((create_resource st p).2).resources = st.resources ∨
    ((create_resource st p).2).resources =
      st.resources ++ [(st.nextOid, mkResourceDoc p)] := by
  by_cases hv : ¬(1 ≤ p.semester ∧ p.semester ≤ 8)
  · left; simp [create_resource, hv]
  · by_cases hdb : st.dbConfigured = false
    · left; simp [create_resource, hv, hdb]
    · right
      simp only [create_resource, if_neg hv, if_neg hdb]
      cases hx : lookup (st.resources ++ [(st.nextOid, mkResourceDoc p)]) st.nextOid <;>
        simp [hx]

theorem approve_resources_cases (st : AppState) (s ab : String) (now : Nat) :
    ((approve_resource st s ab now).2).resources = st.resources ∨
    ∃ rid doc, lookup st.resources rid = some doc ∧
      doc.status ≠ Status.approved ∧
      ((approve_resource st s ab now).2).resources =
        setDoc st.resources rid (approvedDoc doc ab now) := by
  by_cases hdb : st.dbConfigured = false
  · left; simp [approve_resource, hdb]
  · cases hoid : parseOid s with
    | none => left; simp [approve_resource, hdb, oid, hoid]
    | some rid =>
      cases hl : lookup st.resources rid with
      | none => left; simp [approve_resource, hdb, oid, hoid, hl]
      | some doc =>
        by_cases hs : doc.status = Status.approved
        · left; simp [approve_resource, hdb, oid, hoid, hl, hs]
        · right
          refine ⟨rid, doc, hl, hs, ?_⟩
          simp only [approve_resource, if_neg hdb, oid, hoid, hl, if_neg hs]
          rw [lookup_setDoc_self (approvedDoc doc ab now) hl]

/-! ## Claim theorems about the API handlers -/

/-- C4: approving a resource whose stored status is already `approved`
returns the current document unchanged and leaves the whole application
state untouched — so no store write, no `resource_approved`
Notification record and no broadcast happen — and a second approve call
on the same resource returns the very same response again. -/
theorem approve_idempotent (st : AppState) (s : String) (rid : Nat)
    (doc : ResourceDoc) (ab : String) (now : Nat)
    (hdb : st.dbConfigured = true) (hp : parseOid s = some rid)
    (hl : lookup st.resources rid = some doc)
    (hs : doc.status = Status.approved) :
    approve_resource st s ab now = (.ok (oidString rid, doc), st) ∧
    ∀ ab2 now2,
      approve_resource ((approve_resource st s ab now).2) s ab2 now2 =
        (.ok (oidString rid, doc), st) := by
  have h1 : approve_resource st s ab now = (.ok (oidString rid, doc), st) := by
    simp [approve_resource, hdb, oid, hp, hl, hs]
  refine ⟨h1, fun ab2 now2 => ?_⟩
  rw [h1]
  simp [approve_resource, hdb, oid, hp, hl, hs]

/-- C9: with the store configured, the approve operation fails with a
400 client error on a malformed path id and with a 404 client error
when no resource with that id exists, and in both cases the returned
state is exactly the input state: no store write, no Notification and
no broadcast happen. -/
theorem approve_error_cases (st : AppState) (s ab : String) (now : Nat)
    (hdb : st.dbConfigured = true) :
    (parseOid s = none →
       approve_resource st s ab now = (.error (.http 400 "Invalid id"), st)) ∧
    (∀ rid, parseOid s = some rid → lookup st.resources rid = none →
       approve_resource st s ab now =
         (.error (.http 404 "Resource not found"), st)) := by
  constructor
  · intro hp
    simp [approve_resource, hdb, oid, hp]
  · intro rid hp hl
    simp [approve_resource, hdb, oid, hp, hl]

/-- C7 (amended): when the backing store is not configured, `login` and
`list_resources` fail with the service-unavailable (503) error via
their explicit checks, and `list_pending` and `create_resource` surface
the store gateway's service-unavailable error (gateway Modelled from
the spec); `approve_resource`, however, subscripts the unconfigured
store handle directly and fails with an uncaught TypeError — an
internal error, not a service-unavailable one.  No handler retries. -/
theorem store_unavailable_behavior (st : AppState)
    (hdb : st.dbConfigured = false) :
    (∀ n e r s now, login st n e r s now =
        (.error (.http 503 "Database not configured"), st)) ∧
    (∀ sem subj status ub lim, list_resources st sem subj status ub lim =
        (.error (.http 503 "Database not configured"), st)) ∧
    (∀ sem subj, list_pending st sem subj =
        (.error (.http 503 "Database not configured"), st)) ∧
    (∀ p : CreatePayload, 1 ≤ p.semester → p.semester ≤ 8 →
        create_resource st p =
          (.error (.http 503 "Database not configured"), st)) ∧
    (∀ s ab now, approve_resource st s ab now =
        (.error (.internal "TypeError: NoneType is not subscriptable"), st)) := by
  refine ⟨?_, ?_, ?_, ?_, ?_⟩
  · intro n e r s now
    simp [login, hdb]
  · intro sem subj status ub lim
    simp [list_resources, hdb]
  · intro sem subj
    simp [list_pending, hdb]
  · intro p h1 h2
    simp [create_resource, hdb, h1, h2]
  · intro s ab now
    simp [approve_resource, hdb]

/-- C7 counterexample: the claim says every store-touching handler
fails with a service-unavailable error when the store is not
configured; but `approve_resource` on an unconfigured store fails with
an uncaught TypeError (an internal server error), which is not the
service-unavailable response. -/
theorem store_unavailable_counterexample :
    approve_resource (AppState.init false) zeroIdW "t@x.com" 0 =
      (.error (.internal "TypeError: NoneType is not subscriptable"),
       AppState.init false) ∧
    (approve_resource (AppState.init false) zeroIdW "t@x.com" 0).1 ≠
      .error (.http 503 "Database not configured") := by
  have h1 : approve_resource (AppState.init false) zeroIdW "t@x.com" 0 =
      (.error (.internal "TypeError: NoneType is not subscriptable"),
       AppState.init false) := rfl
  refine ⟨h1, ?_⟩
  rw [h1]
  simp

/-- C10: supplying the `status` query parameter as the empty string
omits the status filter entirely (Python string truthiness), so the
built query constrains nothing and documents of every moderation
status match it; any non-empty `status` string — in particular the
documented default `"approved"` — is added to the filter as-is. -/
theorem list_status_filter (st : AppState) (sem : Option Int)
    (subj ub : Option String) (lim : Option Int)
    (hdb : st.dbConfigured = true) :
    (buildResourceQuery sem subj "" ub).status = none ∧
    (∀ s : String, s ≠ "" → (buildResourceQuery sem subj s ub).status = some s) ∧
    (∀ d : ResourceDoc,
       matchesQuery (buildResourceQuery none none "" none) d = true) ∧
    (list_resources st sem subj "" ub lim).1 =
      .ok ((get_documents st.resources (buildResourceQuery sem subj "" ub)
        lim).map cleanResource) := by
  refine ⟨rfl, fun s hs => by simp [buildResourceQuery, hs], fun d => rfl, ?_⟩
  simp [list_resources, hdb]

/-- C8: starting from a state with no user record for email `e` (and
fresh ids, as the store guarantees), a first login creates exactly one
record for `e` holding the first call's fields, and a second login with
the same email overwrites all mutable fields of that same record (same
id), leaving exactly one record for `e` whose fields — including the
name — are those of the latest call. -/
theorem login_upsert (st : AppState) (n1 n2 e r1 r2 : String)
    (s1 s2 : Option Int) (t1 t2 : Nat)
    (hdb : st.dbConfigured = true)
    (h0 : usersWithEmail st.users e = [])
    (hfresh : ∀ p ∈ st.users, p.1 ≠ st.nextOid) :
    usersWithEmail ((login st n1 e r1 s1 t1).2).users e =
      [(st.nextOid, ⟨n1, e, r1, s1, "CSE", true, t1⟩)] ∧
    usersWithEmail ((login ((login st n1 e r1 s1 t1).2) n2 e r2 s2 t2).2).users e =
      [(st.nextOid, ⟨n2, e, r2, s2, "CSE", true, t2⟩)] := by
  have hfind : st.users.find? (fun q => q.2.email == e) = none :=
    find?_eq_none_of_filter_nil h0
  have h1 := login_new st n1 e r1 s1 t1 hdb hfind
  have hst1users : ((login st n1 e r1 s1 t1).2).users =
      st.users ++ [(st.nextOid, ⟨n1, e, r1, s1, "CSE", true, t1⟩)] := by
    rw [h1]
  have hst1db : ((login st n1 e r1 s1 t1).2).dbConfigured = true := by
    rw [h1]
    exact hdb
  have hst1find : ((login st n1 e r1 s1 t1).2).users.find?
      (fun q => q.2.email == e) =
        some (st.nextOid, ⟨n1, e, r1, s1, "CSE", true, t1⟩) := by
    rw [hst1users, find?_append_none hfind]
    simp [List.find?]
  constructor
  · rw [hst1users]
    unfold usersWithEmail at h0 ⊢
    rw [List.filter_append, h0]
    simp
  · rw [login_overwrite ((login st n1 e r1 s1 t1).2) n2 e r2 s2 t2 hst1db hst1find,
        hst1users, setDoc_append_fresh hfresh]
    unfold usersWithEmail at h0 ⊢
    rw [List.filter_append, h0]
    simp

/-- C5: every resource created by the upload operation has status
`pending` (part 1); among all operations of the program, a stored
resource's status is changed only by an approve operation, and — in any
state satisfying the no-`rejected` invariant, which holds initially and
is preserved by every operation (parts 3 and 4) — the only possible
transition is pending to approved, so no operation ever sets a status
to `rejected` (part 2). -/
theorem resource_status_invariant :
    (∀ st p i d', lookup st.resources i = none →
        lookup ((create_resource st p).2).resources i = some d' →
        d'.status = Status.pending) ∧
    (∀ st op now i d d', noRejectedB st = true →
        lookup st.resources i = some d →
        lookup (step st op now).resources i = some d' →
        d'.status ≠ d.status →
        (∃ s ab, op = Op.opApprove s ab) ∧ d.status = Status.pending ∧
          d'.status = Status.approved) ∧
    (∀ st op now, noRejectedB st = true → noRejectedB (step st op now) = true) ∧
    (∀ b, noRejectedB (AppState.init b) = true) := by
  have unchanged : ∀ {res : List (Nat × ResourceDoc)} {i : Nat}
      {d d' : ResourceDoc}, lookup res i = some d → lookup res i = some d' →
      d'.status = d.status := by
    intro res i d d' hd hd'
    have : d = d' := Option.some_inj.mp (hd.symm.trans hd')
    rw [this]
  refine ⟨?_, ?_, ?_, fun b => rfl⟩
  · -- part 1: freshly created resources are pending
    intro st p i d' hnone hsome
    rcases create_resource_resources st p with h | h
    · rw [h, hnone] at hsome
      exact absurd hsome (by simp)
    · rw [h, lookup_append_none hnone] at hsome
      by_cases hi : st.nextOid = i
      · simp [lookup, hi] at hsome
        rw [← hsome]
        rfl
      · simp [lookup, hi] at hsome
  · -- part 2: only approve changes a status, pending → approved
    intro st op now i d d' hnr hd hd' hne
    cases op with
    | opLogin n e r s =>
      have hres : (step st (Op.opLogin n e r s) now).resources = st.resources :=
        login_resources st n e r s now
      rw [hres] at hd'
      exact absurd (unchanged hd hd') hne
    | opList sem subj status ub lim =>
      have hres : (step st (Op.opList sem subj status ub lim) now) = st :=
        list_resources_state st sem subj status ub lim
      rw [hres] at hd'
      exact absurd (unchanged hd hd') hne
    | opListPending sem subj =>
      have hres : (step st (Op.opListPending sem subj) now) = st :=
        list_pending_state st sem subj
      rw [hres] at hd'
      exact absurd (unchanged hd hd') hne
    | opSubscribe => exact absurd (unchanged hd hd') hne
    | opUnsubscribe j => exact absurd (unchanged hd hd') hne
    | opCreate p =>
      have hd2 : lookup ((create_resource st p).2).resources i = some d' := hd'
      rcases create_resource_resources st p with h | h
      · rw [h] at hd2
        exact absurd (unchanged hd hd2) hne
      · rw [h, lookup_append_some hd] at hd2
        have hdd : d = d' := Option.some_inj.mp hd2
        exact absurd (by rw [hdd]) hne
    | opApprove s ab =>
      have hd2 : lookup ((approve_resource st s ab now).2).resources i = some d' :=
        hd'
      rcases approve_resources_cases st s ab now with h | ⟨rid, doc, hldoc, hnap, h⟩
      · rw [h] at hd2
        exact absurd (unchanged hd hd2) hne
      · rw [h] at hd2
        by_cases hir : i = rid
        · subst hir
          rw [lookup_setDoc_self (approvedDoc doc ab now) hldoc] at hd2
          have hdocd : doc = d := Option.some_inj.mp (hldoc.symm.trans hd)
          have hd'eq : d' = approvedDoc doc ab now := (Option.some_inj.mp hd2).symm
          have hrej : d.status ≠ Status.rejected :=
            noRejected_spec hnr (lookup_mem hd)
          have hnap2 : d.status ≠ Status.approved := by
            rw [← hdocd]
            exact hnap
          refine ⟨⟨s, ab, rfl⟩, status_pending_of_ne hnap2 hrej, ?_⟩
          rw [hd'eq]
          rfl
        · rw [lookup_setDoc_ne _ _ hir] at hd2
          exact absurd (unchanged hd hd2) hne
  · -- part 3: the no-rejected invariant is preserved by every operation
    intro st op now hnr
    unfold noRejectedB at hnr ⊢
    rw [List.all_eq_true] at hnr ⊢
    have hmem : ∀ p ∈ (step st op now).resources,
        p ∈ st.resources ∨ p.2.status ≠ Status.rejected := by
      cases op with
      | opLogin n e r s =>
        intro p hp
        have hp2 : p ∈ ((login st n e r s now).2).resources := hp
        rw [login_resources st n e r s now] at hp2
        exact Or.inl hp2
      | opList sem subj status ub lim =>
        intro p hp
        have hp2 : p ∈ ((list_resources st sem subj status ub lim).2).resources := hp
        rw [list_resources_state st sem subj status ub lim] at hp2
        exact Or.inl hp2
      | opListPending sem subj =>
        intro p hp
        have hp2 : p ∈ ((list_pending st sem subj).2).resources := hp
        rw [list_pending_state st sem subj] at hp2
        exact Or.inl hp2
      | opSubscribe => exact fun p hp => Or.inl hp
      | opUnsubscribe j => exact fun p hp => Or.inl hp
      | opCreate p0 =>
        intro p hp
        have hp2 : p ∈ ((create_resource st p0).2).resources := hp
        rcases create_resource_resources st p0 with h | h
        · rw [h] at hp2
          exact Or.inl hp2
        · rw [h] at hp2
          rcases List.mem_append.mp hp2 with h1 | h1
          · exact Or.inl h1
          · right
            rw [List.mem_singleton.mp h1]
            simp [mkResourceDoc]
      | opApprove s ab =>
        intro p hp
        have hp2 : p ∈ ((approve_resource st s ab now).2).resources := hp
        rcases approve_resources_cases st s ab now with h | ⟨rid, doc, _, _, h⟩
        · rw [h] at hp2
          exact Or.inl hp2
        · rw [h] at hp2
          rcases mem_setDoc hp2 with h1 | h1
          · right
            rw [h1]
            simp [approvedDoc]
          · exact Or.inl h1
    intro p hp
    rcases hmem p hp with h1 | h1
    · exact hnr p h1
    · simpa using h1

/-! ## Witness instantiations of the API claim theorems -/

theorem approve_idempotent_witness :
    (stApprovedW.dbConfigured = true ∧ parseOid zeroIdW = some 0 ∧
       lookup stApprovedW.resources 0 = some docApprovedW ∧
       docApprovedW.status = Status.approved) ∧
    approve_resource stApprovedW zeroIdW "t@x.com" 5 =
      (.ok (oidString 0, docApprovedW), stApprovedW) ∧
    approve_resource ((approve_resource stApprovedW zeroIdW "t@x.com" 5).2)
        zeroIdW "u@x.com" 7 = (.ok (oidString 0, docApprovedW), stApprovedW) :=
  ⟨⟨rfl, by decide, by decide, rfl⟩,
   (approve_idempotent stApprovedW zeroIdW 0 docApprovedW "t@x.com" 5 rfl
      (by decide) (by decide) rfl).1,
   (approve_idempotent stApprovedW zeroIdW 0 docApprovedW "t@x.com" 5 rfl
      (by decide) (by decide) rfl).2 "u@x.com" 7⟩

theorem approve_error_cases_witness :
    (stApprovedW.dbConfigured = true ∧ parseOid "not-a-valid-objectid" = none ∧
       parseOid "000000000000000000000001" = some 1 ∧
       lookup stApprovedW.resources 1 = none) ∧
    approve_resource stApprovedW "not-a-valid-objectid" "t@x.com" 3 =
      (.error (.http 400 "Invalid id"), stApprovedW) ∧
    approve_resource stApprovedW "000000000000000000000001" "t@x.com" 3 =
      (.error (.http 404 "Resource not found"), stApprovedW) :=
  ⟨⟨rfl, by decide, by decide, by decide⟩,
   (approve_error_cases stApprovedW "not-a-valid-objectid" "t@x.com" 3 rfl).1
     (by decide),
   (approve_error_cases stApprovedW "000000000000000000000001" "t@x.com" 3
     rfl).2 1 (by decide) (by decide)⟩

theorem store_unavailable_behavior_witness :
    ((AppState.init false).dbConfigured = false ∧
       1 ≤ payloadW.semester ∧ payloadW.semester ≤ 8) ∧
    login (AppState.init false) "Alice" "a@x.com" "student" none 1 =
      (.error (.http 503 "Database not configured"), AppState.init false) ∧
    list_resources (AppState.init false) none none "approved" none (some 100) =
      (.error (.http 503 "Database not configured"), AppState.init false) ∧
    list_pending (AppState.init false) none none =
      (.error (.http 503 "Database not configured"), AppState.init false) ∧
    create_resource (AppState.init false) payloadW =
      (.error (.http 503 "Database not configured"), AppState.init false) ∧
    approve_resource (AppState.init false) zeroIdW "t@x.com" 0 =
      (.error (.internal "TypeError: NoneType is not subscriptable"),
       AppState.init false) :=
  ⟨⟨rfl, by decide, by decide⟩,
   (store_unavailable_behavior (AppState.init false) rfl).1 "Alice" "a@x.com"
     "student" none 1,
   (store_unavailable_behavior (AppState.init false) rfl).2.1 none none
     "approved" none (some 100),
   (store_unavailable_behavior (AppState.init false) rfl).2.2.1 none none,
   (store_unavailable_behavior (AppState.init false) rfl).2.2.2.1 payloadW
     (by decide) (by decide),
   (store_unavailable_behavior (AppState.init false) rfl).2.2.2.2 zeroIdW
     "t@x.com" 0⟩

theorem list_status_filter_witness :
    (stMixedW.dbConfigured = true) ∧
    (buildResourceQuery none none "" none).status = none ∧
    (buildResourceQuery none none "approved" none).status = some "approved" ∧
    matchesQuery (buildResourceQuery none none "" none) docPendingW = true ∧
    matchesQuery (buildResourceQuery none none "" none) docApprovedW = true ∧
    matchesQuery (buildResourceQuery none none "" none) docRejectedW = true ∧
    (list_resources stMixedW none none "" none (some 100)).1 =
      .ok ((get_documents stMixedW.resources (buildResourceQuery none none "" none)
        (some 100)).map cleanResource) :=
  ⟨rfl,
   (list_status_filter stMixedW none none none (some 100) rfl).1,
   (list_status_filter stMixedW none none none (some 100) rfl).2.1 "approved"
     (by decide),
   (list_status_filter stMixedW none none none (some 100) rfl).2.2.1 docPendingW,
   (list_status_filter stMixedW none none none (some 100) rfl).2.2.1 docApprovedW,
   (list_status_filter stMixedW none none none (some 100) rfl).2.2.1 docRejectedW,
   (list_status_filter stMixedW none none none (some 100) rfl).2.2.2⟩

theorem login_upsert_witness :
    ((AppState.init true).dbConfigured = true ∧
       usersWithEmail (AppState.init true).users "a@x.com" = []) ∧
    usersWithEmail
        ((login (AppState.init true) "Alice" "a@x.com" "student" none 1).2).users
        "a@x.com" =
      [(0, ⟨"Alice", "a@x.com", "student", none, "CSE", true, 1⟩)] ∧
    usersWithEmail
        ((login ((login (AppState.init true) "Alice" "a@x.com" "student" none
          1).2) "Bob" "a@x.com" "teacher" (some 3) 2).2).users "a@x.com" =
      [(0, ⟨"Bob", "a@x.com", "teacher", some 3, "CSE", true, 2⟩)] :=
  ⟨⟨rfl, rfl⟩,
   (login_upsert (AppState.init true) "Alice" "Bob" "a@x.com" "student"
      "teacher" none (some 3) 1 2 rfl rfl (by decide)).1,
   (login_upsert (AppState.init true) "Alice" "Bob" "a@x.com" "student"
      "teacher" none (some 3) 1 2 rfl rfl (by decide)).2⟩

theorem resource_status_invariant_witness :
    (noRejectedB stPendingW = true ∧
       lookup stPendingW.resources 0 = some docPendingW ∧
       lookup (step stPendingW (Op.opApprove zeroIdW "t@x.com") 5).resources 0 =
         some (approvedDoc docPendingW "t@x.com" 5) ∧
       (approvedDoc docPendingW "t@x.com" 5).status ≠ docPendingW.status) ∧
    ((∃ s ab, Op.opApprove zeroIdW "t@x.com" = Op.opApprove s ab) ∧
       docPendingW.status = Status.pending ∧
       (approvedDoc docPendingW "t@x.com" 5).status = Status.approved) :=
  ⟨⟨rfl, by decide, by decide, by decide⟩,
   resource_status_invariant.2.1 stPendingW (Op.opApprove zeroIdW "t@x.com") 5 0
     docPendingW (approvedDoc docPendingW "t@x.com" 5) rfl (by decide)
     (by decide) (by decide)⟩

end CsePlatform
